import Mathlib

/-!
Verification development for the tiered memory coordination engine of
mcp-memory-cloudflare.

The embedded program is the coherent current code base: the structured-store
adapter (`DB` class, db.ts), the vector/embedding module (vectorize.ts with
`MemoryConfig`), the MCP tool handlers (mcp.ts) and the Hono HTTP routes
(index.ts).  The callers' signatures (two-argument `deleteMemory`,
five-argument `storeMemory`, `DB.getMemoryById` / `batchCreateMemories`)
match exactly these module versions.

Modelling conventions:
* Timestamps (`Date.now()`) are epoch-ms naturals supplied per call.
* SQL `REAL` similarity scores, thresholds and importance values are exact
  rationals; only the recency formula of `searchMemories` (which applies
  `Math.exp`) lives in `ℝ`.
* The Cloudflare bindings (`env.AI.run`, `env.VECTORIZE.*`) are modelled by an
  explicit effect record `VecEnv`: the embedding function and vector-index
  query are oracles, and the mutating vector calls carry fault-injection
  flags.  The structured store (D1) itself is modelled as always succeeding;
  the claims under verification only require vector-side faults.
* Fallible code returns `Except String`, with the source's error messages.
* JS falsiness: a missing or empty metadata `content` is modelled as `""`;
  `x >= undefined` is `false` (this matters because both write callers pass
  the DB-generated `memoryId` string in the position of `storeMemory`'s
  `config : MemoryConfig` parameter).
-/

namespace MCPMem

/-- Memory tier (db.ts / vectorize.ts): `"short" | "long"`. -/
inductive MemoryTier where
  | short
  | long
deriving DecidableEq

/-- Textual form of a tier, as interpolated into ids and vector namespaces. -/
def MemoryTier.str : MemoryTier → String
  | .short => "short"
  | .long => "long"

/-- Scoring and dedup configuration (vectorize.ts `MemoryConfig`). -/
structure MemoryConfig where
  duplicateThreshold : ℚ
  searchThreshold : ℚ
  recencyWeight : ℚ
  recencyHalfLifeMs : ℚ
deriving DecidableEq

/-- Default configuration (vectorize.ts `DEFAULT_CONFIG`, lines 16-21). -/
def DEFAULT_CONFIG : MemoryConfig :=
  { duplicateThreshold := 0.85
    searchThreshold := 0.65
    recencyWeight := 0.1
    recencyHalfLifeMs := 1000 * 60 * 60 * 24 * 3 }

/-- Canonical structured row (db.ts `MemoryRecord` / the `memories` table).
The `INSERT` never sets `updated_at`, so it starts as `none`. -/
structure MemoryRecord where
  id : String
  userId : String
  tier : MemoryTier
  content : String
  importance : ℚ
  source : Option String
  created_at : ℕ
  updated_at : Option ℕ
deriving DecidableEq

/-- Argument record of `DB.createMemory` (db.ts `CreateMemoryInput`). -/
structure CreateMemoryInput where
  id : Option String
  userId : String
  tier : MemoryTier
  content : String
  importance : Option ℚ
  source : Option String
deriving DecidableEq

/-- Vector-entry metadata snapshot (vectorize.ts `MemoryMetadata`).  A missing
or empty JS `content` string (both falsy) is modelled as `""`. -/
structure MemoryMetadata where
  userId : String
  tier : MemoryTier
  content : String
  createdAt : ℕ
  updatedAt : Option ℕ
  importance : Option ℚ
  source : Option String
deriving DecidableEq

/-- One entry of the vector index: id, embedding values, namespace and the
metadata snapshot (the shape passed to `VECTORIZE.insert` / `upsert`).  The
source's `namespace` field is called `nspace` (Lean keyword). -/
structure VectorEntry where
  id : String
  values : List ℚ
  nspace : String
  metadata : MemoryMetadata
deriving DecidableEq

/-- One match returned by `env.VECTORIZE.query`: in the source both `score`
and `metadata` may be absent (`match.score ?? 0`, `match.metadata as
MemoryMetadata | undefined`). -/
structure VMatch where
  id : String
  score : Option ℚ
  metadata : Option MemoryMetadata
deriving DecidableEq

/-- Search result row (vectorize.ts `MemoryResult`); `score` is the final
recency-boosted score, hence a real. -/
structure MemoryResult where
  id : String
  content : String
  score : ℝ

namespace DB

/-- Row predicate of the SQL `WHERE id = ? AND userId = ?` clauses shared by
`getMemoryById`, `deleteMemory` and `updateMemory`. -/
def keyMatch (memoryId userId : String) (r : MemoryRecord) : Bool :=
  r.id == memoryId && r.userId == userId

/-- Row predicate of the optional-tier `WHERE` clauses (`userId = ?`, plus
`AND tier = ?` when a tier is given) used by `getMemoryCount`,
`getAllMemories` and `clearAllMemories`. -/
def inScope (userId : String) (tier : Option MemoryTier) (r : MemoryRecord) : Bool :=
  match tier with
  | none => r.userId == userId
  | some t => r.userId == userId && r.tier == t

/-- Model of `DB.createMemory` (db.ts lines 69-90): id defaults to
`userId:tier:uuid`, `importance` to 0, `source` to NULL; `created_at := now`
and `updated_at` is left NULL.  The fresh uuid is passed in explicitly. -/
def createMemory (p : CreateMemoryInput) (uuid : String) (now : ℕ)
    (rows : List MemoryRecord) : String × List MemoryRecord :=
  let id := p.id.getD (p.userId ++ ":" ++ p.tier.str ++ ":" ++ uuid)
  (id,
   rows ++ [{ id := id, userId := p.userId, tier := p.tier, content := p.content
              importance := p.importance.getD 0, source := p.source
              created_at := now, updated_at := none }])

/-- Model of `DB.getMemoryById` (db.ts lines 150-164): first row matching
`id` and `userId`, else `null`. -/
def getMemoryById (memoryId userId : String) (rows : List MemoryRecord) :
    Option MemoryRecord :=
  (rows.filter (keyMatch memoryId userId)).head?

/-- Model of `DB.deleteMemory` (db.ts lines 217-225): removes the matching
rows and reports whether the affected-row count was positive. -/
def deleteMemory (memoryId userId : String) (rows : List MemoryRecord) :
    Bool × List MemoryRecord :=
  (decide (0 < rows.countP (keyMatch memoryId userId)),
   rows.filter (fun r => !(keyMatch memoryId userId r)))

/-- Model of `DB.getMemoryCount` (db.ts lines 196-215). -/
def getMemoryCount (userId : String) (tier : Option MemoryTier)
    (rows : List MemoryRecord) : ℕ :=
  rows.countP (inScope userId tier)

/-- Model of `DB.clearAllMemories` (db.ts lines 227-243): deletes every row in
the `(userId, tier?)` scope and returns the affected-row count. -/
def clearAllMemories (userId : String) (tier : Option MemoryTier)
    (rows : List MemoryRecord) : ℕ × List MemoryRecord :=
  (rows.countP (inScope userId tier),
   rows.filter (fun r => !(inScope userId tier r)))

/-- Model of `DB.getAllMemories` (db.ts lines 121-148): the scope's rows,
ordered by `created_at DESC`. -/
def getAllMemories (userId : String) (tier : Option MemoryTier)
    (rows : List MemoryRecord) : List MemoryRecord :=
  (rows.filter (inScope userId tier)).mergeSort
    (fun a b => decide (b.created_at ≤ a.created_at))

/-- Model of `DB.updateMemory` (db.ts lines 245-263): sets `content` and
`updated_at = now` on the matching rows; reports "Memory not found" when no
row was affected. -/
def updateMemory (memoryId userId newContent : String) (now : ℕ)
    (rows : List MemoryRecord) : Except String (List MemoryRecord) :=
  if rows.countP (keyMatch memoryId userId) = 0 then
    .error "Memory not found"
  else
    .ok (rows.map (fun r =>
      if keyMatch memoryId userId r then
        { r with content := newContent, updated_at := some now }
      else r))

end DB

/-- Effect model of the Cloudflare bindings used by vectorize.ts: `embedFn`
is the embedding model's `res.data` for a given (already trimmed) input list,
`query` gives the index's ranked matches for (vector, namespace, topK), and
the three flags inject faults into the mutating vector-index calls. -/
structure VecEnv where
  embedFn : List String → List (List ℚ)
  query : List ℚ → String → ℕ → List VMatch
  insertFails : Bool
  upsertFails : Bool
  deleteFails : Bool

/-- Model of `generateEmbeddings` (vectorize.ts lines 47-63): trims the
inputs, runs the model, and fails when `res.data` is missing or empty. -/
def generateEmbeddings (texts : List String) (env : VecEnv) :
    Except String (List (List ℚ)) :=
  let cleaned := texts.map String.trim
  let data := env.embedFn cleaned
  if data.isEmpty then .error "Embedding generation failed" else .ok data

/-- Metadata built by `updateMemoryVector` (vectorize.ts lines 200-208):
content replaced, `createdAt` carried forward from `previous` when present
(else reset to now), `updatedAt := now`, `importance` and `source` read off
`previous` (absent when `previous` is absent). -/
def mergedMetadata (userId : String) (tier : MemoryTier) (newContent : String)
    (previous : Option MemoryMetadata) (now : ℕ) : MemoryMetadata :=
  { userId := userId, tier := tier, content := newContent
    createdAt := (previous.map MemoryMetadata.createdAt).getD now
    updatedAt := some now
    importance := previous.bind MemoryMetadata.importance
    source := previous.bind MemoryMetadata.source }

/-- Model of a single-entry `VECTORIZE.upsert`: overwrite the entry with the
same id when present, else append. -/
def vectorUpsert (vectors : List VectorEntry) (e : VectorEntry) :
    List VectorEntry :=
  if vectors.any (fun v => v.id == e.id) then
    vectors.map (fun v => if v.id == e.id then e else v)
  else vectors ++ [e]

/-- Model of `VECTORIZE.deleteByIds`. -/
def vectorDeleteByIds (ids : List String) (vectors : List VectorEntry) :
    List VectorEntry :=
  vectors.filter (fun v => !(ids.contains v.id))

/-- Model of `updateMemoryVector` (vectorize.ts lines 187-223): re-embeds the
new content and upserts the entry with `mergedMetadata`.  The source also
takes a `config` parameter that its body never reads; it is omitted here. -/
def updateMemoryVector (memoryId newContent userId : String) (tier : MemoryTier)
    (env : VecEnv) (previous : Option MemoryMetadata) (now : ℕ)
    (vectors : List VectorEntry) : Except String (List VectorEntry) :=
  let nspace := userId ++ ":" ++ tier.str
  match generateEmbeddings [newContent] env with
  | .error e => .error e
  | .ok embeds =>
    match embeds.head? with
    | none => .error "Invalid embedding"
    | some vector =>
      if env.upsertFails then .error "Vector upsert failed"
      else
        .ok (vectorUpsert vectors
          { id := memoryId, values := vector, nspace := nspace
            metadata := mergedMetadata userId tier newContent previous now })

/-- Runtime value of `storeMemory`'s fifth positional parameter
`config : MemoryConfig`.  mcp.ts line 57 and the write route of index.ts pass
the DB-generated `memoryId` (a string) in this position, so at runtime the
parameter can hold either an actual config or a string. -/
inductive ConfigArg where
  | conf (c : MemoryConfig)
  | strArg (s : String)
deriving DecidableEq

/-- Duplicate test `(top.score ?? 0) >= config.duplicateThreshold`
(vectorize.ts line 91) under JS semantics for the two runtime types of
`config`: reading `.duplicateThreshold` off a string yields `undefined`, and
`x >= undefined` is `false`. -/
def dupHit (score : Option ℚ) : ConfigArg → Bool
  | .conf c => decide (c.duplicateThreshold ≤ score.getD 0)
  | .strArg _ => false

/-- Model of `storeMemory` (vectorize.ts lines 69-126): embed the content,
query the namespace's nearest neighbor, and either merge onto the matched id
via `updateMemoryVector` (dedup hit) or insert a brand-new vector entry under
a freshly generated `userId:tier:uuid` id.  The fresh uuid is passed in
explicitly. -/
def storeMemory (content userId : String) (tier : MemoryTier) (env : VecEnv)
    (cfg : ConfigArg) (uuid : String) (now : ℕ) (vectors : List VectorEntry) :
    Except String (String × List VectorEntry) :=
  let nspace := userId ++ ":" ++ tier.str
  let memoryId := userId ++ ":" ++ tier.str ++ ":" ++ uuid
  match generateEmbeddings [content] env with
  | .error e => .error e
  | .ok embeds =>
    match embeds.head? with
    | none => .error "Invalid embedding"
    | some vector =>
      let insertNew : Except String (String × List VectorEntry) :=
        let metadata : MemoryMetadata :=
          { userId := userId, tier := tier, content := content
            createdAt := now, updatedAt := none
            importance := none, source := none }
        if env.insertFails then .error "Vector insert failed"
        else
          .ok (memoryId,
            vectors ++ [{ id := memoryId, values := vector, nspace := nspace
                          metadata := metadata }])
      match (env.query vector nspace 1).head? with
      | some top =>
        if dupHit top.score cfg then
          match updateMemoryVector top.id content userId tier env top.metadata
              now vectors with
          | .error e => .error e
          | .ok vectors2 => .ok (top.id, vectors2)
        else insertNew
      | none => insertNew

/-- Model of vectorize.ts `deleteMemory` (lines 229-239): delete the entry by
id from the index, re-raising a vector-side failure. -/
def deleteMemoryVector (memoryId : String) (env : VecEnv)
    (vectors : List VectorEntry) : Except String (List VectorEntry) :=
  if env.deleteFails then .error "Vector delete failed"
  else .ok (vectors.filter (fun v => v.id != memoryId))

/-- Final score of one surviving search match (vectorize.ts lines 164-169):
`age = now - createdAt`, `recency = exp(-age / recencyHalfLifeMs)`,
`finalScore = semantic * (1 + recency * recencyWeight)`. -/
noncomputable def finalScore (cfg : MemoryConfig) (now : ℕ) (semantic : ℚ)
    (createdAt : ℕ) : ℝ :=
  (semantic : ℝ) *
    (1 + Real.exp (-(((now : ℝ) - (createdAt : ℝ)) / (cfg.recencyHalfLifeMs : ℝ)))
          * (cfg.recencyWeight : ℝ))

/-- Per-match step of `searchMemories` (vectorize.ts lines 156-176): drop the
match when metadata or content is missing (JS-falsy, i.e. `""`) or the
semantic score is below `searchThreshold`; otherwise score it. -/
noncomputable def processMatch (cfg : MemoryConfig) (now : ℕ) (m : VMatch) :
    Option MemoryResult :=
  match m.metadata with
  | none => none
  | some meta =>
    let semantic := m.score.getD 0
    if meta.content = "" ∨ semantic < cfg.searchThreshold then none
    else some { id := m.id, content := meta.content
                score := finalScore cfg now semantic meta.createdAt }

/-- Filter-map-sort pipeline of `searchMemories` (vectorize.ts lines 155-180):
score the surviving matches and sort descending by final score (the JS
comparator `b.score - a.score` under a stable sort). -/
noncomputable def rankMatches (cfg : MemoryConfig) (now : ℕ)
    (ms : List VMatch) : List MemoryResult :=
  (ms.filterMap (processMatch cfg now)).mergeSort
    (fun a b => decide (b.score ≤ a.score))

/-- Model of `searchMemories` (vectorize.ts lines 132-181): embed the query,
fetch `topK` neighbors in `userId:tier`, return `[]` when there are no
matches, else the ranked surviving matches. -/
noncomputable def searchMemories (query userId : String) (tier : MemoryTier)
    (env : VecEnv) (topK : ℕ) (cfg : MemoryConfig) (now : ℕ) :
    Except String (List MemoryResult) :=
  let nspace := userId ++ ":" ++ tier.str
  match generateEmbeddings [query] env with
  | .error e => .error e
  | .ok embeds =>
    match embeds.head? with
    | none => .error "Invalid query embedding"
    | some queryVector =>
      let results := env.query queryVector nspace topK
      if results.isEmpty then .ok []
      else .ok (rankMatches cfg now results)

/-- Combined persistent state: the structured store's rows and the vector
index's entries. -/
structure StoreState where
  rows : List MemoryRecord
  vectors : List VectorEntry
deriving DecidableEq

/-- Possible responses of the HTTP write route: 200 with the id, 400 for a
missing field, 500 after a caught failure. -/
inductive WriteResponse where
  | ok (id : String)
  | badRequest
  | serverError
deriving DecidableEq

/-- MCP `memory_write` tool handler (mcp.ts lines 39-78): create the DB row
first, then index into Vectorize.  Line 57 passes the fresh `memoryId` as the
fifth positional argument of `storeMemory`, which lands in the `config`
parameter (`ConfigArg.strArg`).  The catch-all returns a failure message but
performs no compensating delete of the created row. -/
def mcpMemoryWrite (userId content : String) (tier : MemoryTier)
    (importance : Option ℚ) (source : Option String) (env : VecEnv)
    (dbUuid storeUuid : String) (now : ℕ) (st : StoreState) :
    String × StoreState :=
  let created :=
    DB.createMemory
      { id := none, userId := userId, tier := tier, content := content
        importance := importance, source := source } dbUuid now st.rows
  let memoryId := created.1
  match storeMemory content userId tier env (ConfigArg.strArg memoryId)
      storeUuid now st.vectors with
  | .ok r =>
    ("Memory stored successfully with ID: " ++ memoryId,
     { rows := created.2, vectors := r.2 })
  | .error _ =>
    ("Failed to store memory.", { rows := created.2, vectors := st.vectors })

/-- HTTP `POST /:userId/memory/write` route (index.ts lines 26-59): 400 when
`content` is falsy, else create the DB row first, index into Vectorize
(again passing `memoryId` in the `config` position), and on a vector failure
delete the just-created row before answering 500. -/
def honoMemoryWrite (userId content : String) (tier : MemoryTier)
    (env : VecEnv) (dbUuid storeUuid : String) (now : ℕ) (st : StoreState) :
    WriteResponse × StoreState :=
  if content = "" then (.badRequest, st)
  else
    let created :=
      DB.createMemory
        { id := none, userId := userId, tier := tier, content := content
          importance := none, source := none } dbUuid now st.rows
    let memoryId := created.1
    match storeMemory content userId tier env (ConfigArg.strArg memoryId)
        storeUuid now st.vectors with
    | .ok r => (.ok memoryId, { rows := created.2, vectors := r.2 })
    | .error _ =>
      let rolledBack := (DB.deleteMemory memoryId userId created.2).2
      (.serverError, { rows := rolledBack, vectors := st.vectors })

/-- MCP `memory_update` tool handler (mcp.ts lines 317-364): look up the
canonical record by `(id, userId)` (answering "Memory not found." when
absent), take the tier from that record, update the structured row, then call
`updateMemoryVector` — with no previous metadata argument (line 343). -/
def mcpMemoryUpdate (userId memoryId newContent : String) (env : VecEnv)
    (now : ℕ) (st : StoreState) : String × StoreState :=
  match DB.getMemoryById memoryId userId st.rows with
  | none => ("Memory not found.", st)
  | some memory =>
    match DB.updateMemory memoryId userId newContent now st.rows with
    | .error _ => ("Failed to update memory.", st)
    | .ok rows2 =>
      match updateMemoryVector memoryId newContent userId memory.tier env
          none now st.vectors with
      | .error _ =>
        ("Failed to update memory.", { rows := rows2, vectors := st.vectors })
      | .ok vectors2 =>
        ("Memory updated successfully.", { rows := rows2, vectors := vectors2 })

/-- MCP `memory_delete` tool handler (mcp.ts lines 380-425): look up the
record by `(id, userId)` (answering "Memory not found." when absent), delete
the vector entry, then delete the structured row. -/
def mcpMemoryDelete (userId memoryId : String) (env : VecEnv)
    (st : StoreState) : String × StoreState :=
  match DB.getMemoryById memoryId userId st.rows with
  | none => ("Memory not found.", st)
  | some _ =>
    match deleteMemoryVector memoryId env st.vectors with
    | .error _ => ("Failed to delete memory.", st)
    | .ok vectors2 =>
      ("Memory deleted successfully.",
       { rows := (DB.deleteMemory memoryId userId st.rows).2
         vectors := vectors2 })

/-- Message suffix of `memory_clear`: `` ` from ${tier}-term memory` `` when a
tier was given. -/
def clearSuffix : Option MemoryTier → String
  | none => ""
  | some t => " from " ++ t.str ++ "-term memory"

/-- MCP `memory_clear` tool handler (mcp.ts lines 442-487): refuse without
`confirm`, read the scope's count first, collect the scope's ids via
`getAllMemories`, `deleteByIds` them from the index when nonempty, clear the
structured rows, and report the pre-read count. -/
def mcpMemoryClear (userId : String) (tier : Option MemoryTier)
    (confirm : Bool) (env : VecEnv) (st : StoreState) : String × StoreState :=
  if !confirm then
    ("Deletion not confirmed. Set confirm=true to proceed.", st)
  else
    let count := DB.getMemoryCount userId tier st.rows
    let ids := (DB.getAllMemories userId tier st.rows).map MemoryRecord.id
    if env.deleteFails ∧ ids ≠ [] then ("Failed to clear memories.", st)
    else
      let vectors2 := if ids.isEmpty then st.vectors
                      else vectorDeleteByIds ids st.vectors
      ("Cleared " ++ toString count ++ " memories" ++ clearSuffix tier ++ ".",
       { rows := (DB.clearAllMemories userId tier st.rows).2
         vectors := vectors2 })

/-- Model of `DB.getMemories` (db.ts lines 103-119): the `(userId, tier)`
rows ordered by `created_at DESC`, limited to `limit` (default 50). -/
def DB.getMemories (userId : String) (tier : MemoryTier) (limit : ℕ)
    (rows : List MemoryRecord) : List MemoryRecord :=
  ((rows.filter (fun r => r.userId == userId && r.tier == tier)).mergeSort
    (fun a b => decide (b.created_at ≤ a.created_at))).take limit

/-- JS truthiness of an array value: an array is always truthy, even when
empty, so the routes' guard `if (!memory)` over a `getMemories` result can
never fire. -/
def jsFalsyArray (l : List MemoryRecord) : Bool :=
  match l with
  | _ => false

/-- Possible responses of the HTTP update/delete routes: 200, 400 for a
missing field, 404 from the not-found guard, 500 after a caught failure. -/
inductive RouteResponse where
  | ok
  | badRequest
  | notFound
  | serverError
deriving DecidableEq

/-- HTTP `PUT /:userId/memory/:memoryId` route (index.ts lines 93-117): 400
when `content` is falsy; the not-found guard tests `db.getMemories(userId,
"short")`, an array that is always truthy, so it is dead; then the route calls
`updateMemoryVector` with tier hardcoded to `"short"` and no previous
metadata, and answers success.  The structured row is never updated here. -/
def honoMemoryUpdate (userId memoryId content : String) (env : VecEnv)
    (now : ℕ) (st : StoreState) : RouteResponse × StoreState :=
  if content = "" then (.badRequest, st)
  else
    let memory := DB.getMemories userId .short 50 st.rows
    if jsFalsyArray memory then (.notFound, st)
    else
      match updateMemoryVector memoryId content userId .short env none now
          st.vectors with
      | .error _ => (.serverError, st)
      | .ok vectors2 => (.ok, { rows := st.rows, vectors := vectors2 })

/-- HTTP `DELETE /:userId/memory/:memoryId` route (index.ts lines 123-146):
the same dead truthiness guard, then the vector delete followed by the
structured delete, answering success regardless of whether a row matched. -/
def honoMemoryDelete (userId memoryId : String) (env : VecEnv)
    (st : StoreState) : RouteResponse × StoreState :=
  let memory := DB.getMemories userId .short 50 st.rows
  if jsFalsyArray memory then (.notFound, st)
  else
    match deleteMemoryVector memoryId env st.vectors with
    | .error _ => (.serverError, st)
    | .ok vectors2 =>
      (.ok, { rows := (DB.deleteMemory memoryId userId st.rows).2
              vectors := vectors2 })

/-- Claim C1: the claim asserts that every successful non-duplicate write
inserts the vector entry under the same id as the created structured record.
The code violates it on every caller path: `storeMemory` has no id parameter
(the caller's `memoryId` lands in the `config` slot) and generates its own
fresh `userId:tier:uuid` id, so the structured row gets the DB-side uuid and
the vector entry gets an independent vectorize-side uuid. -/
theorem C1_write_vector_id_differs_from_record_id :
    let env : VecEnv := ⟨fun _ => [[1]], fun _ _ _ => [], false, false, false⟩
    let res := mcpMemoryWrite "u" "hello" .long none none env "aaa" "bbb" 100
      ⟨[], []⟩
    res.1 = "Memory stored successfully with ID: u:long:aaa" ∧
    res.2.rows.map MemoryRecord.id = ["u:long:aaa"] ∧
    res.2.vectors.map VectorEntry.id = ["u:long:bbb"] ∧
    ("u:long:aaa" : String) ≠ "u:long:bbb" := by
  decide

/-- Claim C2: the claim asserts that a write whose nearest neighbor scores at
or above `duplicateThreshold` (0.85) merges onto the matched id and creates no
new record in either store.  In the code the write handler has already created
a structured row before `storeMemory` runs, and `storeMemory`'s threshold is
read off the string bound to `config`, so the dedup branch never fires: with a
0.9-scoring neighbor the call still creates a fresh structured row and a fresh
vector entry and reports the fresh id. -/
theorem C2_duplicate_write_creates_new_records :
    let meta0 : MemoryMetadata :=
      ⟨"u", .long, "User prefers tea", 100, none, none, none⟩
    let env : VecEnv :=
      ⟨fun _ => [[1]], fun _ _ _ => [⟨"u:long:aaa", some 0.9, some meta0⟩],
       false, false, false⟩
    let st : StoreState :=
      ⟨[⟨"u:long:aaa", "u", .long, "User prefers tea", 0, none, 100, none⟩],
       [⟨"u:long:aaa", [1], "u:long", meta0⟩]⟩
    let res := mcpMemoryWrite "u" "User prefers tea" .long none none env
      "bbb" "ccc" 200 st
    DEFAULT_CONFIG.duplicateThreshold ≤ (0.9 : ℚ) ∧
    (res.1 = "Memory stored successfully with ID: u:long:bbb" ∧
     res.2.rows.map MemoryRecord.id = ["u:long:aaa", "u:long:bbb"] ∧
     res.2.vectors.map VectorEntry.id = ["u:long:aaa", "u:long:ccc"] ∧
     res.2.rows.map MemoryRecord.created_at = [100, 200]) := by
  exact ⟨by norm_num [DEFAULT_CONFIG], by decide⟩

/-- Claim C5: the claim asserts that `memory_update` carries the prior vector
metadata's `createdAt`, `importance` and `source` forward into the upserted
entry.  The handler calls `updateMemoryVector` without the previous-metadata
argument, so the upserted metadata has `createdAt` reset to the call time and
`importance`/`source` dropped, while the structured row keeps `created_at`. -/
theorem C5_update_drops_prior_vector_metadata :
    let env : VecEnv := ⟨fun _ => [[2]], fun _ _ _ => [], false, false, false⟩
    let st : StoreState :=
      ⟨[⟨"m1", "u", .long, "old", 1, some "chat", 100, none⟩],
       [⟨"m1", [1], "u:long", ⟨"u", .long, "old", 100, none, some 1,
          some "chat"⟩⟩]⟩
    let res := mcpMemoryUpdate "u" "m1" "new" env 200 st
    res.1 = "Memory updated successfully." ∧
    res.2.rows = [⟨"m1", "u", .long, "new", 1, some "chat", 100, some 200⟩] ∧
    res.2.vectors =
      [⟨"m1", [2], "u:long", ⟨"u", .long, "new", 200, some 200, none, none⟩⟩] ∧
    (200 : ℕ) ≠ 100 := by
  decide

/-- Claim C3, counterexample: on the MCP `memory_write` path a vector-insert
failure is caught by the blanket handler with no compensating delete, so the
just-created structured row survives and `getMemoryById` finds it — the net
state does not return to what existed before the call. -/
theorem C3_counterexample_mcp_insert_failure_keeps_row :
    let env : VecEnv := ⟨fun _ => [[1]], fun _ _ _ => [], true, false, false⟩
    let res := mcpMemoryWrite "u" "note" .long none none env "aaa" "bbb" 100
      ⟨[], []⟩
    res.1 = "Failed to store memory." ∧
    res.2.rows ≠ [] ∧
    (DB.getMemoryById "u:long:aaa" "u" res.2.rows).isSome = true ∧
    res.2.vectors = [] := by
  decide

/-- Claim C6, counterexample: on the MCP `memory_write` path the structured
row is created before the embedding is computed, and the embedding failure is
caught with no compensating delete — so a structured row is persisted for the
attempted memory even though the provider returned no vector. -/
theorem C6_counterexample_mcp_embedding_failure_persists_row :
    let env : VecEnv := ⟨fun _ => [], fun _ _ _ => [], false, false, false⟩
    let res := mcpMemoryWrite "u" "fact" .long none none env "aaa" "bbb" 100
      ⟨[], []⟩
    res.1 = "Failed to store memory." ∧
    res.2.rows.map MemoryRecord.id = ["u:long:aaa"] ∧
    (DB.getMemoryById "u:long:aaa" "u" res.2.rows).isSome = true ∧
    res.2.vectors = [] := by
  decide

/-- Helper: a write caller that binds a string to `storeMemory`'s `config`
parameter can never take the dedup branch, so the call either inserts a fresh
entry under `userId:tier:uuid` or fails with the injected insert fault. -/
theorem storeMemory_strArg (content userId : String) (tier : MemoryTier)
    (env : VecEnv) (s uuid : String) (now : ℕ) (vectors : List VectorEntry)
    (vec : List ℚ) (hemb : env.embedFn [content.trim] = [vec]) :
    storeMemory content userId tier env (.strArg s) uuid now vectors =
      if env.insertFails then .error "Vector insert failed"
      else .ok (userId ++ ":" ++ tier.str ++ ":" ++ uuid,
        vectors ++ [{ id := userId ++ ":" ++ tier.str ++ ":" ++ uuid
                      values := vec, nspace := userId ++ ":" ++ tier.str
                      metadata := ⟨userId, tier, content, now, none, none,
                        none⟩ }]) := by
  have hge : generateEmbeddings [content] env = .ok [vec] := by
    simp [generateEmbeddings, hemb]
  unfold storeMemory
  rw [hge]
  cases hq : (env.query vec (userId ++ ":" ++ tier.str) 1).head? with
  | none => simp [hq]
  | some top => simp [hq, dupHit]

/-- Helper: when the embedding provider returns no data, `storeMemory` fails
before touching the index. -/
theorem storeMemory_embed_failure (content userId : String) (tier : MemoryTier)
    (env : VecEnv) (cfg : ConfigArg) (uuid : String) (now : ℕ)
    (vectors : List VectorEntry) (hemb : env.embedFn [content.trim] = []) :
    storeMemory content userId tier env cfg uuid now vectors =
      .error "Embedding generation failed" := by
  simp [storeMemory, generateEmbeddings, hemb]

/-- Helper: deleting a just-appended row whose id is fresh with respect to the
prior rows restores exactly the prior rows. -/
theorem deleteMemory_append_fresh (memoryId userId : String)
    (rows : List MemoryRecord) (row : MemoryRecord)
    (hid : row.id = memoryId) (huser : row.userId = userId)
    (hfresh : ∀ r ∈ rows, r.id ≠ memoryId) :
    (DB.deleteMemory memoryId userId (rows ++ [row])).2 = rows := by
  simp only [DB.deleteMemory, List.filter_append]
  have h1 : rows.filter (fun r => !(DB.keyMatch memoryId userId r)) = rows := by
    rw [List.filter_eq_self]
    intro r hr
    simp [DB.keyMatch, hfresh r hr]
  have h2 : [row].filter (fun r => !(DB.keyMatch memoryId userId r)) = [] := by
    simp [DB.keyMatch, hid, huser]
  rw [h1, h2, List.append_nil]

/-- Helper: `getMemoryById` misses when no row has the requested id. -/
theorem getMemoryById_none (memoryId userId : String)
    (rows : List MemoryRecord)
    (habs : ∀ r ∈ rows, ¬(r.id = memoryId ∧ r.userId = userId)) :
    DB.getMemoryById memoryId userId rows = none := by
  have : rows.filter (DB.keyMatch memoryId userId) = [] := by
    rw [List.filter_eq_nil_iff]
    intro r hr
    simp only [DB.keyMatch, Bool.and_eq_true, beq_iff_eq]
    exact fun h => habs r hr ⟨h.1, h.2⟩
  simp [DB.getMemoryById, this]

/-- Claim C3 (amended): on the HTTP write route
(`POST /:userId/memory/write`), a vector-insert failure triggers the
compensating delete of the just-created structured row and the failure is
surfaced as a 500, so the net state equals the state before the call and a
subsequent `getMemoryById` for the attempted id returns absent.  (The MCP
`memory_write` handler does not compensate; see the counterexample.) -/
theorem C3_hono_insert_failure_restores_state (userId content : String)
    (tier : MemoryTier) (env : VecEnv) (dbUuid storeUuid : String) (now : ℕ)
    (st : StoreState) (vec : List ℚ)
    (hc : content ≠ "")
    (hemb : env.embedFn [content.trim] = [vec])
    (hfail : env.insertFails = true)
    (hfresh : ∀ r ∈ st.rows,
      r.id ≠ userId ++ ":" ++ tier.str ++ ":" ++ dbUuid) :
    honoMemoryWrite userId content tier env dbUuid storeUuid now st =
      (.serverError, st) ∧
    DB.getMemoryById (userId ++ ":" ++ tier.str ++ ":" ++ dbUuid) userId
      (honoMemoryWrite userId content tier env dbUuid storeUuid now
        st).2.rows = none := by
  have hsm := storeMemory_strArg content userId tier env
    (userId ++ ":" ++ tier.str ++ ":" ++ dbUuid) storeUuid now st.vectors vec
    hemb
  rw [hfail, if_pos rfl] at hsm
  have hmain : honoMemoryWrite userId content tier env dbUuid storeUuid now st
      = (.serverError, st) := by
    unfold honoMemoryWrite
    rw [if_neg hc]
    simp only [DB.createMemory, Option.getD_none]
    rw [hsm]
    simp only []
    rw [deleteMemory_append_fresh (userId ++ ":" ++ tier.str ++ ":" ++ dbUuid)
      userId st.rows
      ⟨userId ++ ":" ++ tier.str ++ ":" ++ dbUuid, userId, tier, content, 0,
        none, now, none⟩ rfl rfl hfresh]
  refine ⟨hmain, ?_⟩
  rw [hmain]
  exact getMemoryById_none _ _ _ (fun r hr h => hfresh r hr h.1)

/-- Witness for C3: concrete run of the amended statement. -/
theorem C3_hono_insert_failure_restores_state_witness :
    honoMemoryWrite "u" "note" .long
        ⟨fun _ => [[1]], fun _ _ _ => [], true, false, false⟩ "aaa" "bbb" 100
        ⟨[], []⟩ = (.serverError, ⟨[], []⟩) ∧
    DB.getMemoryById ("u" ++ ":" ++ MemoryTier.long.str ++ ":" ++ "aaa") "u"
      (honoMemoryWrite "u" "note" .long
        ⟨fun _ => [[1]], fun _ _ _ => [], true, false, false⟩ "aaa" "bbb" 100
        ⟨[], []⟩).2.rows = none :=
  C3_hono_insert_failure_restores_state "u" "note" .long
    ⟨fun _ => [[1]], fun _ _ _ => [], true, false, false⟩ "aaa" "bbb" 100
    ⟨[], []⟩ [1] (by decide) rfl rfl (by simp)

/-- Claim C6 (amended): when the embedding provider returns no vector the
write fails and, on the HTTP write route, nothing remains persisted: the
pre-created structured row is removed by the compensating delete and the
vector index was never touched, so the net state equals the state before the
call.  (The MCP `memory_write` handler leaves the structured row behind; see
the counterexample.) -/
theorem C6_hono_embedding_failure_persists_nothing (userId content : String)
    (tier : MemoryTier) (env : VecEnv) (dbUuid storeUuid : String) (now : ℕ)
    (st : StoreState)
    (hc : content ≠ "")
    (hemb : env.embedFn [content.trim] = [])
    (hfresh : ∀ r ∈ st.rows,
      r.id ≠ userId ++ ":" ++ tier.str ++ ":" ++ dbUuid) :
    honoMemoryWrite userId content tier env dbUuid storeUuid now st =
      (.serverError, st) ∧
    DB.getMemoryById (userId ++ ":" ++ tier.str ++ ":" ++ dbUuid) userId
      (honoMemoryWrite userId content tier env dbUuid storeUuid now
        st).2.rows = none := by
  have hsm := storeMemory_embed_failure content userId tier env
    (.strArg (userId ++ ":" ++ tier.str ++ ":" ++ dbUuid)) storeUuid now
    st.vectors hemb
  have hmain : honoMemoryWrite userId content tier env dbUuid storeUuid now st
      = (.serverError, st) := by
    unfold honoMemoryWrite
    rw [if_neg hc]
    simp only [DB.createMemory, Option.getD_none]
    rw [hsm]
    simp only []
    rw [deleteMemory_append_fresh (userId ++ ":" ++ tier.str ++ ":" ++ dbUuid)
      userId st.rows
      ⟨userId ++ ":" ++ tier.str ++ ":" ++ dbUuid, userId, tier, content, 0,
        none, now, none⟩ rfl rfl hfresh]
  refine ⟨hmain, ?_⟩
  rw [hmain]
  exact getMemoryById_none _ _ _ (fun r hr h => hfresh r hr h.1)

/-- Witness for C6: concrete run of the amended statement. -/
theorem C6_hono_embedding_failure_persists_nothing_witness :
    honoMemoryWrite "u" "fact" .long
        ⟨fun _ => [], fun _ _ _ => [], false, false, false⟩ "aaa" "bbb" 100
        ⟨[], []⟩ = (.serverError, ⟨[], []⟩) ∧
    DB.getMemoryById ("u" ++ ":" ++ MemoryTier.long.str ++ ":" ++ "aaa") "u"
      (honoMemoryWrite "u" "fact" .long
        ⟨fun _ => [], fun _ _ _ => [], false, false, false⟩ "aaa" "bbb" 100
        ⟨[], []⟩).2.rows = none :=
  C6_hono_embedding_failure_persists_nothing "u" "fact" .long
    ⟨fun _ => [], fun _ _ _ => [], false, false, false⟩ "aaa" "bbb" 100
    ⟨[], []⟩ (by decide) rfl (by simp)

/-- Claim C7, counterexample: the HTTP routes violate the claim on an absent
`(id, userId)` pair.  Their not-found guard tests the truthiness of a
`getMemories` array and is dead, so the PUT route upserts a brand-new vector
entry under the absent id (a vector-index mutation) and answers success
instead of NotFound, and the DELETE route also answers success. -/
theorem C7_counterexample_hono_routes_absent_id :
    let env : VecEnv := ⟨fun _ => [[1]], fun _ _ _ => [], false, false, false⟩
    let res := honoMemoryUpdate "u" "ghost" "new" env 200 ⟨[], []⟩
    res.1 = .ok ∧
    res.2.vectors =
      [⟨"ghost", [1], "u:short",
        ⟨"u", .short, "new", 200, some 200, none, none⟩⟩] ∧
    res.2.vectors ≠ [] ∧
    honoMemoryDelete "u" "ghost" env ⟨[], []⟩ = (.ok, ⟨[], []⟩) := by
  decide

/-- Claim C7 (amended): through the MCP tool handlers, an update or delete
whose `(id, userId)` pair matches no structured row (absent id, or a row
owned by a different user) reports a not-found outcome and leaves both stores
untouched, and `DB.updateMemory` itself reports "Memory not found" without
mutating.  The HTTP PUT/DELETE routes do not satisfy this: their dead
truthiness guard never reports NotFound, and the PUT route mutates the vector
index under the absent id (see the counterexample). -/
theorem C7_absent_target_notfound_no_mutation
    (userId memoryId newContent : String) (env : VecEnv) (now : ℕ)
    (st : StoreState)
    (habs : ∀ r ∈ st.rows, ¬(r.id = memoryId ∧ r.userId = userId)) :
    mcpMemoryUpdate userId memoryId newContent env now st
      = ("Memory not found.", st) ∧
    mcpMemoryDelete userId memoryId env st = ("Memory not found.", st) ∧
    DB.updateMemory memoryId userId newContent now st.rows
      = .error "Memory not found" := by
  have hby := getMemoryById_none memoryId userId st.rows habs
  have hcount : st.rows.countP (DB.keyMatch memoryId userId) = 0 := by
    rw [List.countP_eq_length_filter]
    have : st.rows.filter (DB.keyMatch memoryId userId) = [] := by
      rw [List.filter_eq_nil_iff]
      intro r hr
      simp only [DB.keyMatch, Bool.and_eq_true, beq_iff_eq]
      exact fun h => habs r hr ⟨h.1, h.2⟩
    rw [this]
    rfl
  refine ⟨?_, ?_, ?_⟩
  · unfold mcpMemoryUpdate
    rw [hby]
  · unfold mcpMemoryDelete
    rw [hby]
  · unfold DB.updateMemory
    rw [if_pos hcount]

/-- Witness for C7: the id exists but belongs to another user, so ownership
mismatch is also covered. -/
theorem C7_absent_target_notfound_no_mutation_witness :
    mcpMemoryUpdate "u" "m1" "new"
        ⟨fun _ => [[1]], fun _ _ _ => [], false, false, false⟩ 200
        ⟨[⟨"m1", "other", .long, "x", 0, none, 1, none⟩], []⟩
      = ("Memory not found.",
         ⟨[⟨"m1", "other", .long, "x", 0, none, 1, none⟩], []⟩) ∧
    mcpMemoryDelete "u" "m1"
        ⟨fun _ => [[1]], fun _ _ _ => [], false, false, false⟩
        ⟨[⟨"m1", "other", .long, "x", 0, none, 1, none⟩], []⟩
      = ("Memory not found.",
         ⟨[⟨"m1", "other", .long, "x", 0, none, 1, none⟩], []⟩) ∧
    DB.updateMemory "m1" "u" "new" 200
        [⟨"m1", "other", .long, "x", 0, none, 1, none⟩]
      = .error "Memory not found" :=
  C7_absent_target_notfound_no_mutation "u" "m1" "new"
    ⟨fun _ => [[1]], fun _ _ _ => [], false, false, false⟩ 200
    ⟨[⟨"m1", "other", .long, "x", 0, none, 1, none⟩], []⟩ (by decide)

/-- Helper: a `countP` equals the length minus the complementary filter's
length. -/
theorem countP_eq_length_sub_filter_not {α : Type} (p : α → Bool)
    (l : List α) :
    l.countP p = l.length - (l.filter (fun a => !p a)).length := by
  have h : l.countP p + l.countP (fun a => !p a) = l.length := by
    induction l with
    | nil => rfl
    | cons a t ih => by_cases hpa : p a = true <;>
        simp [List.countP_cons, hpa] <;> omega
  rw [← List.countP_eq_length_filter]
  omega

/-- Helper: the full evaluation of a confirmed `memory_clear` when the
vector-side delete does not fault. -/
theorem mcpMemoryClear_run (userId : String) (tier : Option MemoryTier)
    (env : VecEnv) (st : StoreState) (hdel : env.deleteFails = false) :
    mcpMemoryClear userId tier true env st =
      ("Cleared " ++ toString (st.rows.countP (DB.inScope userId tier))
          ++ " memories" ++ clearSuffix tier ++ ".",
       { rows := st.rows.filter (fun r => !(DB.inScope userId tier r))
         vectors :=
           if ((DB.getAllMemories userId tier st.rows).map
               MemoryRecord.id).isEmpty then st.vectors
           else vectorDeleteByIds
             ((DB.getAllMemories userId tier st.rows).map MemoryRecord.id)
             st.vectors }) := by
  unfold mcpMemoryClear
  rw [hdel]
  simp [DB.getMemoryCount, DB.clearAllMemories]

/-- Claim C9: a confirmed `memory_clear` removes exactly the structured rows
in the targeted `(userId, tier?)` scope (rows of other users or other tiers
survive in place), and the count in the reported message equals the number of
structured rows actually removed. -/
theorem C9_clear_removes_exact_scope (userId : String)
    (tier : Option MemoryTier) (env : VecEnv) (st : StoreState)
    (hdel : env.deleteFails = false) :
    (mcpMemoryClear userId tier true env st).2.rows
        = st.rows.filter (fun r => !(DB.inScope userId tier r)) ∧
    (∀ r ∈ st.rows, DB.inScope userId tier r = false →
        r ∈ (mcpMemoryClear userId tier true env st).2.rows) ∧
    (mcpMemoryClear userId tier true env st).1
        = "Cleared "
          ++ toString (st.rows.length
              - (mcpMemoryClear userId tier true env st).2.rows.length)
          ++ " memories" ++ clearSuffix tier ++ "." := by
  rw [mcpMemoryClear_run userId tier env st hdel]
  refine ⟨rfl, ?_, ?_⟩
  · intro r hr hscope
    simp only [List.mem_filter]
    exact ⟨hr, by simp [hscope]⟩
  · simp only []
    rw [countP_eq_length_sub_filter_not (DB.inScope userId tier) st.rows]

/-- Witness for C9: two users and two tiers; clearing `(u, short)` removes
exactly the one matching row and reports count 1. -/
theorem C9_clear_removes_exact_scope_witness :
    (mcpMemoryClear "u" (some .short) true
        ⟨fun _ => [[1]], fun _ _ _ => [], false, false, false⟩
        ⟨[⟨"a1", "u", .short, "x", 0, none, 1, none⟩,
          ⟨"a2", "u", .long, "y", 0, none, 2, none⟩,
          ⟨"a3", "v", .short, "z", 0, none, 3, none⟩], []⟩).2.rows
      = [⟨"a1", "u", .short, "x", 0, none, 1, none⟩,
         ⟨"a2", "u", .long, "y", 0, none, 2, none⟩,
         ⟨"a3", "v", .short, "z", 0, none, 3, none⟩].filter
           (fun r => !(DB.inScope "u" (some .short) r)) ∧
    (⟨"a2", "u", .long, "y", 0, none, 2, none⟩ : MemoryRecord) ∈
      (mcpMemoryClear "u" (some .short) true
        ⟨fun _ => [[1]], fun _ _ _ => [], false, false, false⟩
        ⟨[⟨"a1", "u", .short, "x", 0, none, 1, none⟩,
          ⟨"a2", "u", .long, "y", 0, none, 2, none⟩,
          ⟨"a3", "v", .short, "z", 0, none, 3, none⟩], []⟩).2.rows ∧
    (mcpMemoryClear "u" (some .short) true
        ⟨fun _ => [[1]], fun _ _ _ => [], false, false, false⟩
        ⟨[⟨"a1", "u", .short, "x", 0, none, 1, none⟩,
          ⟨"a2", "u", .long, "y", 0, none, 2, none⟩,
          ⟨"a3", "v", .short, "z", 0, none, 3, none⟩], []⟩).1
      = "Cleared "
        ++ toString ((3 : ℕ)
            - (mcpMemoryClear "u" (some .short) true
                ⟨fun _ => [[1]], fun _ _ _ => [], false, false, false⟩
                ⟨[⟨"a1", "u", .short, "x", 0, none, 1, none⟩,
                  ⟨"a2", "u", .long, "y", 0, none, 2, none⟩,
                  ⟨"a3", "v", .short, "z", 0, none, 3, none⟩],
                 []⟩).2.rows.length)
        ++ " memories" ++ clearSuffix (some .short) ++ "." := by
  obtain ⟨h1, h2, h3⟩ := C9_clear_removes_exact_scope "u" (some .short)
    ⟨fun _ => [[1]], fun _ _ _ => [], false, false, false⟩
    ⟨[⟨"a1", "u", .short, "x", 0, none, 1, none⟩,
      ⟨"a2", "u", .long, "y", 0, none, 2, none⟩,
      ⟨"a3", "v", .short, "z", 0, none, 3, none⟩], []⟩ rfl
  exact ⟨h1, h2 _ (by decide) (by decide), h3⟩

/-- Claim C10: a non-duplicate write inserts its vector entry with a metadata
snapshot holding only `userId`, `tier`, `content`, `createdAt` — the
caller-supplied importance and source land in the structured row only — and a
later duplicate-merge over that snapshot carries forward no importance and no
source. -/
theorem C10_new_vector_metadata_minimal (userId content : String)
    (tier : MemoryTier) (importance : Option ℚ) (source : Option String)
    (env : VecEnv) (dbUuid storeUuid : String) (now : ℕ) (st : StoreState)
    (vec : List ℚ)
    (hemb : env.embedFn [content.trim] = [vec])
    (hins : env.insertFails = false) :
    (mcpMemoryWrite userId content tier importance source env dbUuid storeUuid
        now st).2.vectors
      = st.vectors ++
        [⟨userId ++ ":" ++ tier.str ++ ":" ++ storeUuid, vec,
          userId ++ ":" ++ tier.str,
          ⟨userId, tier, content, now, none, none, none⟩⟩] ∧
    (mcpMemoryWrite userId content tier importance source env dbUuid storeUuid
        now st).2.rows
      = st.rows ++
        [⟨userId ++ ":" ++ tier.str ++ ":" ++ dbUuid, userId, tier, content,
          importance.getD 0, source, now, none⟩] ∧
    ∀ (newContent : String) (now2 : ℕ),
      (mergedMetadata userId tier newContent
          (some ⟨userId, tier, content, now, none, none, none⟩)
          now2).importance = none ∧
      (mergedMetadata userId tier newContent
          (some ⟨userId, tier, content, now, none, none, none⟩)
          now2).source = none := by
  have hsm := storeMemory_strArg content userId tier env
    (userId ++ ":" ++ tier.str ++ ":" ++ dbUuid) storeUuid now st.vectors vec
    hemb
  rw [hins, if_neg (by simp)] at hsm
  unfold mcpMemoryWrite
  simp only [DB.createMemory, Option.getD_none]
  rw [hsm]
  exact ⟨rfl, rfl, fun _ _ => ⟨rfl, rfl⟩⟩

/-- Witness for C10: a write with explicit importance 1 and source "tool". -/
theorem C10_new_vector_metadata_minimal_witness :
    (mcpMemoryWrite "u" "hi" .short (some 1) (some "tool")
        ⟨fun _ => [[1]], fun _ _ _ => [], false, false, false⟩ "aaa" "bbb"
        100 ⟨[], []⟩).2.vectors
      = [] ++
        [⟨"u" ++ ":" ++ MemoryTier.short.str ++ ":" ++ "bbb", [1],
          "u" ++ ":" ++ MemoryTier.short.str,
          ⟨"u", .short, "hi", 100, none, none, none⟩⟩] ∧
    (mcpMemoryWrite "u" "hi" .short (some 1) (some "tool")
        ⟨fun _ => [[1]], fun _ _ _ => [], false, false, false⟩ "aaa" "bbb"
        100 ⟨[], []⟩).2.rows
      = [] ++
        [⟨"u" ++ ":" ++ MemoryTier.short.str ++ ":" ++ "aaa", "u", .short,
          "hi", (some (1 : ℚ)).getD 0, some "tool", 100, none⟩] ∧
    ∀ (newContent : String) (now2 : ℕ),
      (mergedMetadata "u" .short newContent
          (some ⟨"u", .short, "hi", 100, none, none, none⟩)
          now2).importance = none ∧
      (mergedMetadata "u" .short newContent
          (some ⟨"u", .short, "hi", 100, none, none, none⟩)
          now2).source = none :=
  C10_new_vector_metadata_minimal "u" "hi" .short (some 1) (some "tool")
    ⟨fun _ => [[1]], fun _ _ _ => [], false, false, false⟩ "aaa" "bbb" 100
    ⟨[], []⟩ [1] rfl rfl

/-- Claim C4: a surviving search result's score is
`semantic * (1 + recencyWeight * exp(-(now - createdAt) / recencyHalfLifeMs))`
(defaults: weight 0.1, half-life 3 days in ms), and with a positive weight and
a positive relevance floor the final score strictly exceeds the semantic-only
score. -/
theorem C4_search_final_score :
    (DEFAULT_CONFIG.recencyWeight = 0.1 ∧
     DEFAULT_CONFIG.recencyHalfLifeMs = 1000 * 60 * 60 * 24 * 3) ∧
    ∀ (cfg : MemoryConfig) (now : ℕ) (ms : List VMatch) (r : MemoryResult),
      0 < cfg.searchThreshold → 0 < cfg.recencyWeight →
      r ∈ rankMatches cfg now ms →
      ∃ m ∈ ms, ∃ meta, m.metadata = some meta ∧
        r.score = (m.score.getD 0 : ℝ) *
          (1 + (cfg.recencyWeight : ℝ) *
            Real.exp (-(((now : ℝ) - (meta.createdAt : ℝ))
                / (cfg.recencyHalfLifeMs : ℝ)))) ∧
        (m.score.getD 0 : ℝ) < r.score := by
  refine ⟨⟨rfl, rfl⟩, ?_⟩
  intro cfg now ms r hthr hw hr
  unfold rankMatches at hr
  have hr2 : r ∈ ms.filterMap (processMatch cfg now) :=
    (List.mergeSort_perm _ _).mem_iff.mp hr
  obtain ⟨m, hm, hpm⟩ := List.mem_filterMap.mp hr2
  refine ⟨m, hm, ?_⟩
  unfold processMatch at hpm
  cases hmd : m.metadata with
  | none => rw [hmd] at hpm; exact absurd hpm (by simp)
  | some meta =>
    rw [hmd] at hpm
    simp only [] at hpm
    by_cases hcond : meta.content = "" ∨ m.score.getD 0 < cfg.searchThreshold
    · rw [if_pos hcond] at hpm
      exact absurd hpm (by simp)
    · rw [if_neg hcond] at hpm
      push_neg at hcond
      have hscore : cfg.searchThreshold ≤ m.score.getD 0 := hcond.2
      have hre := Option.some.inj hpm
      refine ⟨meta, rfl, ?_, ?_⟩
      · rw [← hre]
        unfold finalScore
        ring
      · have hspos : (0 : ℝ) < (m.score.getD 0 : ℝ) := by
          exact_mod_cast lt_of_lt_of_le hthr hscore
        have hepos : (0 : ℝ) <
            Real.exp (-(((now : ℝ) - (meta.createdAt : ℝ))
              / (cfg.recencyHalfLifeMs : ℝ))) := Real.exp_pos _
        have hwpos : (0 : ℝ) < (cfg.recencyWeight : ℝ) := by exact_mod_cast hw
        rw [← hre]
        unfold finalScore
        nlinarith [mul_pos hspos (mul_pos hepos hwpos)]

/-- Claim C8: search returns only matches with content present and semantic
score at or above `searchThreshold`, sorted non-increasing by final score; a
search whose matches are all dropped (or that gets no matches at all) yields
`Except.ok` of an empty list, never an error. -/
theorem C8_search_threshold_sorted_empty (cfg : MemoryConfig) (now : ℕ)
    (ms : List VMatch) :
    (∀ r ∈ rankMatches cfg now ms, ∃ m ∈ ms, ∃ meta,
        m.metadata = some meta ∧ meta.content ≠ "" ∧
        cfg.searchThreshold ≤ m.score.getD 0 ∧ r.content = meta.content) ∧
    (rankMatches cfg now ms).Sorted (fun a b => b.score ≤ a.score) ∧
    ((∀ m ∈ ms, processMatch cfg now m = none) →
        rankMatches cfg now ms = []) ∧
    ∀ (query userId : String) (tier : MemoryTier) (env : VecEnv) (topK : ℕ)
      (vec : List ℚ), env.embedFn [query.trim] = [vec] →
      searchMemories query userId tier env topK cfg now =
        .ok (rankMatches cfg now
          (env.query vec (userId ++ ":" ++ tier.str) topK)) := by
  refine ⟨?_, ?_, ?_, ?_⟩
  · intro r hr
    unfold rankMatches at hr
    have hr2 : r ∈ ms.filterMap (processMatch cfg now) :=
      (List.mergeSort_perm _ _).mem_iff.mp hr
    obtain ⟨m, hm, hpm⟩ := List.mem_filterMap.mp hr2
    refine ⟨m, hm, ?_⟩
    unfold processMatch at hpm
    cases hmd : m.metadata with
    | none => rw [hmd] at hpm; exact absurd hpm (by simp)
    | some meta =>
      rw [hmd] at hpm
      simp only [] at hpm
      by_cases hcond : meta.content = "" ∨ m.score.getD 0 < cfg.searchThreshold
      · rw [if_pos hcond] at hpm
        exact absurd hpm (by simp)
      · rw [if_neg hcond] at hpm
        push_neg at hcond
        exact ⟨meta, rfl, hcond.1, hcond.2,
          by rw [← Option.some.inj hpm]⟩
  · have htrans : ∀ a b c : MemoryResult,
        decide (b.score ≤ a.score) = true →
        decide (c.score ≤ b.score) = true →
        decide (c.score ≤ a.score) = true := by
      intro a b c h1 h2
      simp only [decide_eq_true_eq] at *
      exact le_trans h2 h1
    have htotal : ∀ a b : MemoryResult,
        (decide (b.score ≤ a.score) || decide (a.score ≤ b.score)) = true := by
      intro a b
      simp only [Bool.or_eq_true, decide_eq_true_eq]
      exact le_total _ _
    exact (List.sorted_mergeSort htrans htotal
      (ms.filterMap (processMatch cfg now))).imp
        (fun h => of_decide_eq_true h)
  · intro hall
    unfold rankMatches
    rw [List.filterMap_eq_nil_iff.mpr hall, List.mergeSort_nil]
  · intro query userId tier env topK vec hq
    have hge : generateEmbeddings [query] env = .ok [vec] := by
      simp [generateEmbeddings, hq]
    unfold searchMemories
    rw [hge]
    cases hres : env.query vec (userId ++ ":" ++ tier.str) topK with
    | nil => simp [hres, rankMatches]
    | cons a l => simp [hres]

/-- Shared test metadata: one long-tier memory about tea. -/
def metaA : MemoryMetadata := ⟨"u", .long, "User prefers tea", 100, none, none,
  none⟩

/-- Shared test match with semantic score 0.7 over `metaA`. -/
def matchA : VMatch := ⟨"a", some 0.7, some metaA⟩

/-- Result of scoring `matchA` at time 100 under the default config. -/
noncomputable def resA : MemoryResult :=
  ⟨"a", "User prefers tea", finalScore DEFAULT_CONFIG 100 0.7 100⟩

/-- Evaluation lemma: `matchA` survives the default filter and scores to
`resA`. -/
theorem processMatch_matchA :
    processMatch DEFAULT_CONFIG 100 matchA = some resA := by
  unfold processMatch matchA metaA resA
  simp only [Option.getD_some]
  rw [if_neg]
  push_neg
  exact ⟨by decide, by norm_num [DEFAULT_CONFIG]⟩

/-- Evaluation lemma: ranking the singleton `[matchA]` yields `[resA]`. -/
theorem rankMatches_matchA :
    rankMatches DEFAULT_CONFIG 100 [matchA] = [resA] := by
  unfold rankMatches
  rw [List.filterMap_cons, processMatch_matchA, List.filterMap_nil]
  exact List.mergeSort_singleton resA

/-- Witness for C4: concrete surviving match at score 0.7 under the default
config. -/
theorem C4_search_final_score_witness :
    ∃ m ∈ [matchA], ∃ meta, m.metadata = some meta ∧
      resA.score = (m.score.getD 0 : ℝ) *
        (1 + (DEFAULT_CONFIG.recencyWeight : ℝ) *
          Real.exp (-((((100 : ℕ) : ℝ) - (meta.createdAt : ℝ))
              / (DEFAULT_CONFIG.recencyHalfLifeMs : ℝ)))) ∧
      (m.score.getD 0 : ℝ) < resA.score :=
  C4_search_final_score.2 DEFAULT_CONFIG 100 [matchA] resA
    (by norm_num [DEFAULT_CONFIG]) (by norm_num [DEFAULT_CONFIG])
    (by rw [rankMatches_matchA]; exact List.mem_singleton_self resA)

/-- Oracle environment for the C8 witness: embedding `[[1]]`, the index
always answering `[matchA]`. -/
def envB : VecEnv := ⟨fun _ => [[1]], fun _ _ _ => [matchA], false, false,
  false⟩

/-- Witness for C8: concrete threshold/sortedness/empty/no-throw runs. -/
theorem C8_search_threshold_sorted_empty_witness :
    (∃ m ∈ [matchA], ∃ meta, m.metadata = some meta ∧ meta.content ≠ "" ∧
        DEFAULT_CONFIG.searchThreshold ≤ m.score.getD 0 ∧
        resA.content = meta.content) ∧
    (rankMatches DEFAULT_CONFIG 100 [matchA]).Sorted
        (fun a b => b.score ≤ a.score) ∧
    rankMatches DEFAULT_CONFIG 100 [⟨"b", some 1, none⟩] = [] ∧
    searchMemories "q" "u" .long envB 10 DEFAULT_CONFIG 100 =
      .ok (rankMatches DEFAULT_CONFIG 100
        (envB.query [1] ("u" ++ ":" ++ MemoryTier.long.str) 10)) := by
  refine ⟨?_, ?_, ?_, ?_⟩
  · exact (C8_search_threshold_sorted_empty DEFAULT_CONFIG 100 [matchA]).1
      resA (by rw [rankMatches_matchA]; exact List.mem_singleton_self resA)
  · exact (C8_search_threshold_sorted_empty DEFAULT_CONFIG 100 [matchA]).2.1
  · exact (C8_search_threshold_sorted_empty DEFAULT_CONFIG 100
      [⟨"b", some 1, none⟩]).2.2.1
      (by intro m hm; rw [List.mem_singleton] at hm; subst hm; rfl)
  · exact (C8_search_threshold_sorted_empty DEFAULT_CONFIG 100 []).2.2.2
      "q" "u" .long envB 10 [1] rfl

end MCPMem
